import Mathlib

/-!
Verification of the mcp-apps-viewer document pipeline.

Shallow embedding of `src/parser.py` (ALTO / PAGE XML normalisation),
`src/fetchers.py` (cache, in-flight deduplication, thumbnail resize and
page assembly).  XML documents are modelled at the element-tree level:
a document is the tree of elements and attribute strings that
`xml.etree.ElementTree` hands to the parser; attribute values are
`Option String` (absent vs present).  Python `int`s are `Int`, Python
`float` arithmetic is modelled exactly over `ℚ`.
-/

namespace Viewer

/-! ### Restricted models of Python `int()` / `float()`

`pyParseInt` models `int(s)` on the usual decimal literals: surrounding
whitespace, an optional sign, then decimal digits (underscores and
non-decimal bases are out of scope).  `pyParseFloat` models `float(s)`
on decimal literals with an optional fractional part (exponents,
`inf`/`nan` are out of scope).  Both return `none` where Python raises
`ValueError`. -/

def digitsToNat (l : List Char) : Nat :=
  l.foldl (fun a c => a * 10 + (c.toNat - 48)) 0

def isDigitStr (l : List Char) : Bool :=
  !l.isEmpty && l.all (·.isDigit)

def pyParseIntCore (l : List Char) : Option Int :=
  match l with
  | '-' :: rest => if isDigitStr rest then some (-(digitsToNat rest : Int)) else none
  | '+' :: rest => if isDigitStr rest then some (digitsToNat rest : Int) else none
  | _ => if isDigitStr l then some (digitsToNat l : Int) else none

/-- Python's surrounding-whitespace tolerance: trim both ends of a
character list. -/
def trimChars (l : List Char) : List Char :=
  ((l.dropWhile (·.isWhitespace)).reverse.dropWhile (·.isWhitespace)).reverse

def pyParseIntChars (l : List Char) : Option Int :=
  pyParseIntCore (trimChars l)

def pyParseInt (s : String) : Option Int :=
  pyParseIntChars s.toList

/-- Split a character list at the first dot, if any. -/
def splitOnDot : List Char → List Char × Option (List Char)
  | [] => ([], none)
  | '.' :: rest => ([], some rest)
  | c :: rest =>
      let r := splitOnDot rest
      (c :: r.1, r.2)

def pyParseFloatCore (l : List Char) : Option ℚ :=
  let p := splitOnDot l
  match p.2 with
  | none => if isDigitStr p.1 then some ((digitsToNat p.1 : ℚ)) else none
  | some fp =>
      if p.1.all (·.isDigit) && fp.all (·.isDigit) && (!p.1.isEmpty || !fp.isEmpty) then
        some ((digitsToNat p.1 : ℚ) + (digitsToNat fp : ℚ) / (10 : ℚ) ^ fp.length)
      else none

def pyParseFloat (s : String) : Option ℚ :=
  match trimChars s.toList with
  | '-' :: rest => (pyParseFloatCore rest).map (fun q => -q)
  | '+' :: rest => pyParseFloatCore rest
  | l => pyParseFloatCore l

/-- Worker for `pySplitWs`: accumulates the current chunk (reversed). -/
def wsSplitAux : List Char → List Char → List (List Char)
  | [], acc => if acc = [] then [] else [acc.reverse]
  | c :: rest, acc =>
      if c.isWhitespace then
        if acc = [] then wsSplitAux rest []
        else acc.reverse :: wsSplitAux rest []
      else wsSplitAux rest (c :: acc)

/-- Python `str.split()` with no argument: split on whitespace runs,
dropping empty chunks. -/
def pySplitWs (s : String) : List String :=
  (wsSplitAux s.toList []).map (fun l => String.mk l)

/-- Python `str.split(sep)` for a one-character separator: empty chunks
are kept. -/
def splitOnChar (sep : Char) : List Char → List (List Char)
  | [] => [[]]
  | c :: rest =>
      if c = sep then [] :: splitOnChar sep rest
      else
        match splitOnChar sep rest with
        | [] => [[c]]
        | h :: t => (c :: h) :: t

/-! ### `src/parser.py`: helpers `_int` / `_float` -/

/-- `_int(value, default)` from `src/parser.py`: `int(value) if value else
default`, with `ValueError` caught to `default`. -/
def _int (value : Option String) (default : Int) : Int :=
  match value with
  | none => default
  | some s => if s = "" then default else (pyParseInt s).getD default

/-- `_float(value)` from `src/parser.py`: `float(value) if value else
None`, with `ValueError` caught to `None`. -/
def _float (value : Option String) : Option ℚ :=
  match value with
  | none => none
  | some s => if s = "" then none else pyParseFloat s

/-! ### Data model (`TextLine` as consumed and produced by `src/parser.py`) -/

structure TextLine where
  id : String
  polygon : String
  transcription : String
  hpos : Int
  vpos : Int
  width : Int
  height : Int
  confidence : Option ℚ
deriving DecidableEq, Repr

structure TextLayer where
  text_lines : List TextLine
  page_width : Int
  page_height : Int
  full_text : String
deriving DecidableEq, Repr

/-! ### `_build_text_layer` (`src/parser.py` lines 16-48) -/

/-- The accumulation loop of `_build_text_layer`: scans the raw lines in
order, collecting retained lines and their transcriptions, and counting
lines skipped for a missing polygon / transcription. -/
def buildScan : List TextLine → List TextLine × List String × Nat × Nat
  | [] => ([], [], 0, 0)
  | line :: rest =>
      let r := buildScan rest
      let skipP := (if line.polygon = "" then 1 else 0) + r.2.2.1
      let skipT := (if line.transcription = "" then 1 else 0) + r.2.2.2
      if line.polygon ≠ "" ∧ line.transcription ≠ "" then
        (line :: r.1, line.transcription :: r.2.1, skipP, skipT)
      else
        (r.1, r.2.1, skipP, skipT)

/-- `_build_text_layer(lines, page_width, page_height, format_label)`:
filter lines with both polygon and transcription, join transcriptions
with newlines (the `format_label` argument only feeds logging). -/
def _build_text_layer (lines : List TextLine) (page_width page_height : Int)
    (format_label : String) : TextLayer :=
  let r := buildScan lines
  { text_lines := r.1
    page_width := page_width
    page_height := page_height
    full_text := String.intercalate "\n" r.2.1 }

/-! ### Geometry helpers (`src/parser.py` lines 51-80) -/

def _BASELINE_ASCENT : Int := 40
def _BASELINE_DESCENT : Int := 15

/-- One `x,y` chunk of a BASELINE attribute: `x, y = p.split(",")` then
`(int(x), int(y))`; `none` models the `ValueError` from a wrong arity
or an unparseable coordinate. -/
def baselinePoint (p : String) : Option (Int × Int) :=
  match splitOnChar ',' p.toList with
  | [x, y] =>
      match pyParseIntChars x, pyParseIntChars y with
      | some a, some b => some (a, b)
      | _, _ => none
  | _ => none

def intPoint (x y : Int) : String := toString x ++ "," ++ toString y

/-- `_polygon_from_baseline(baseline, ascent, descent)`: top points with
`max(0, y - ascent)`, then the points reversed with `y + descent`;
any parse error or fewer than two points yields `""`. -/
def _polygon_from_baseline (baseline : String) (ascent descent : Int) : String :=
  match (pySplitWs baseline).mapM baselinePoint with
  | none => ""
  | some points =>
      if points.length < 2 then ""
      else
        let top := points.map (fun q => intPoint q.1 (max 0 (q.2 - ascent)))
        let bottom := points.reverse.map (fun q => intPoint q.1 (q.2 + descent))
        String.intercalate " " (top ++ bottom)

/-- One chunk of a polygon attribute: `tuple(int(v) for v in p.split(","))`. -/
def polygonChunk (p : String) : Option (List Int) :=
  (splitOnChar ',' p.toList).mapM pyParseIntChars

def listMin (x : Int) (xs : List Int) : Int := xs.foldl min x
def listMax (x : Int) (xs : List Int) : Int := xs.foldl max x

/-- `_bbox_from_polygon(polygon)`: `(min xs, min ys, max xs - min xs,
max ys - min ys)` over the parsed points; `(0,0,0,0)` on the
`ValueError`/`IndexError` paths (unparseable coordinate, a point with
fewer than two coordinates, or no points at all). -/
def _bbox_from_polygon (polygon : String) : Int × Int × Int × Int :=
  match (pySplitWs polygon).mapM polygonChunk with
  | none => (0, 0, 0, 0)
  | some points =>
      if points.any (fun p => p.length < 2) then (0, 0, 0, 0)
      else
        match points with
        | [] => (0, 0, 0, 0)
        | p0 :: rest =>
            let xs := rest.map (fun p => p.headD 0)
            let ys := rest.map (fun p => p.getD 1 0)
            let minx := listMin (p0.headD 0) xs
            let miny := listMin (p0.getD 1 0) ys
            (minx, miny, listMax (p0.headD 0) xs - minx, listMax (p0.getD 1 0) ys - miny)

/-! ### Element-tree model of the two XML dialects

The parsers read documents through `xml.etree.ElementTree`; we model a
document as exactly the elements and attributes the parser code touches.
`Option` marks a child element / attribute that may be absent. -/

structure AltoShape where
  POINTS : Option String
deriving DecidableEq, Repr

structure AltoString where
  CONTENT : Option String
  WC : Option String
deriving DecidableEq, Repr

structure AltoLine where
  ID : Option String
  shapePolygon : Option AltoShape
  BASELINE : Option String
  HPOS : Option String
  VPOS : Option String
  WIDTH : Option String
  HEIGHT : Option String
  strings : List AltoString
deriving DecidableEq, Repr

structure AltoPage where
  WIDTH : Option String
  HEIGHT : Option String
deriving DecidableEq, Repr

structure AltoDoc where
  page : Option AltoPage
  textLines : List AltoLine
deriving DecidableEq, Repr

def _DEFAULT_PAGE_WIDTH : Int := 6192
def _DEFAULT_PAGE_HEIGHT : Int := 5432

/-! ### `parse_alto_xml` (`src/parser.py` lines 97-150) -/

/-- `polygon_el.get("POINTS", "") if polygon_el is not None else ""`. -/
def altoExplicitPolygon (tl : AltoLine) : String :=
  match tl.shapePolygon with
  | some el => el.POINTS.getD ""
  | none => ""

/-- The polygon of one ALTO line: explicit `Shape/Polygon POINTS` if
non-empty, else a strip synthesised from `BASELINE`, else a rectangle
from the line bbox attributes when width and height are both truthy. -/
def altoLinePolygon (tl : AltoLine) : String :=
  let polygon := altoExplicitPolygon tl
  if polygon = "" then
    let baseline := tl.BASELINE.getD ""
    if baseline ≠ "" then
      _polygon_from_baseline baseline _BASELINE_ASCENT _BASELINE_DESCENT
    else
      let h := _int tl.HPOS 0
      let v := _int tl.VPOS 0
      let w := _int tl.WIDTH 0
      let ht := _int tl.HEIGHT 0
      if w ≠ 0 ∧ ht ≠ 0 then
        intPoint h v ++ " " ++ intPoint (h + w) v ++ " " ++
          intPoint (h + w) (v + ht) ++ " " ++ intPoint h (v + ht)
      else ""
  else polygon

/-- The per-word confidences present and parseable on an ALTO line:
`[v for s in strings if (v := _float(s.get("WC"))) is not None]`. -/
def altoWcValid (tl : AltoLine) : List ℚ :=
  tl.strings.filterMap (fun s => _float s.WC)

/-- The raw `TextLine` built for one ALTO `TextLine` element
(loop body of `parse_alto_xml`, before `_build_text_layer`). -/
def altoLineToTextLine (tl : AltoLine) : TextLine :=
  let words := tl.strings.map (fun s => s.CONTENT.getD "")
  let transcription := String.intercalate " " (words.filter (fun w => w ≠ ""))
  let wc_valid := altoWcValid tl
  { id := tl.ID.getD ""
    polygon := altoLinePolygon tl
    transcription := transcription
    hpos := _int tl.HPOS 0
    vpos := _int tl.VPOS 0
    width := _int tl.WIDTH 0
    height := _int tl.HEIGHT 0
    confidence :=
      if wc_valid.isEmpty then none
      else some (wc_valid.sum / (wc_valid.length : ℚ)) }

/-- Page size of an ALTO document: `WIDTH`/`HEIGHT` attributes of the
`Page` element through `_int` with the defaults, or the defaults when
no `Page` element exists. -/
def altoPageSize (d : AltoDoc) : Int × Int :=
  match d.page with
  | some p => (_int p.WIDTH _DEFAULT_PAGE_WIDTH, _int p.HEIGHT _DEFAULT_PAGE_HEIGHT)
  | none => (_DEFAULT_PAGE_WIDTH, _DEFAULT_PAGE_HEIGHT)

def parse_alto_xml (d : AltoDoc) : TextLayer :=
  let sz := altoPageSize d
  _build_text_layer (d.textLines.map altoLineToTextLine) sz.1 sz.2 "ALTO"

/-! ### `parse_page_xml` (`src/parser.py` lines 153-196) -/

structure PageCoords where
  points : Option String
deriving DecidableEq, Repr

structure PageUnicode where
  text : Option String
deriving DecidableEq, Repr

structure PageTextEquiv where
  unicode : Option PageUnicode
  conf : Option String
deriving DecidableEq, Repr

structure PageLine where
  id : Option String
  coords : Option PageCoords
  textEquiv : Option PageTextEquiv
deriving DecidableEq, Repr

structure PageAttrs where
  imageWidth : Option String
  imageHeight : Option String
deriving DecidableEq, Repr

structure PageDoc where
  page : Option PageAttrs
  textLines : List PageLine
deriving DecidableEq, Repr

/-- The raw `TextLine` built for one PAGE XML `TextLine` element
(loop body of `parse_page_xml`, before `_build_text_layer`). -/
def pageLineToTextLine (tl : PageLine) : TextLine :=
  let polygon :=
    match tl.coords with
    | some c => c.points.getD ""
    | none => ""
  let tc : String × Option ℚ :=
    match tl.textEquiv with
    | some te =>
        (match te.unicode with
         | some u => (u.text.getD "").trim
         | none => "",
         _float te.conf)
    | none => ("", none)
  let bbox := if polygon ≠ "" then _bbox_from_polygon polygon else (0, 0, 0, 0)
  { id := tl.id.getD ""
    polygon := polygon
    transcription := tc.1
    hpos := bbox.1
    vpos := bbox.2.1
    width := bbox.2.2.1
    height := bbox.2.2.2
    confidence := tc.2 }

/-- Page size of a PAGE XML document: `imageWidth`/`imageHeight` of the
`Page` element through `_int` with the defaults, or the defaults when
no `Page` element exists. -/
def pagePageSize (d : PageDoc) : Int × Int :=
  match d.page with
  | some p => (_int p.imageWidth _DEFAULT_PAGE_WIDTH, _int p.imageHeight _DEFAULT_PAGE_HEIGHT)
  | none => (_DEFAULT_PAGE_WIDTH, _DEFAULT_PAGE_HEIGHT)

def parse_page_xml (d : PageDoc) : TextLayer :=
  let sz := pagePageSize d
  _build_text_layer (d.textLines.map pageLineToTextLine) sz.1 sz.2 "PAGE XML"

/-! ### `src/fetchers.py`: data and the thumbnail resize -/

/-- The text-layer dict produced by `fetch_and_parse_text_layer` and
consumed by `build_page_data`:
`{"textLines": [...], "pageWidth": w, "pageHeight": h}`. -/
structure TextLayerDict where
  textLines : List TextLine
  pageWidth : Int
  pageHeight : Int
deriving DecidableEq, Repr

def _EMPTY_TEXT_LAYER : TextLayerDict :=
  { textLines := [], pageWidth := 0, pageHeight := 0 }

/-- What `_resize_thumbnail` reads off the decoded source image. -/
structure PilImage where
  width : Nat
  height : Nat
  mode : String
deriving DecidableEq, Repr

/-- `_resize_thumbnail(raw, max_width)`, dimensions and mode of the
image that gets encoded: `new_height = int(img.height * (max_width /
img.width))` truncates toward zero, which over the non-negative image
dimensions (exact arithmetic standing in for the float computation) is
`img.height * max_width / img.width` in `Nat` division; the mode branch
converts any non-RGB image to RGB.  The JPEG byte encoding itself is
out of scope; the result is `(width, height, mode)` of the saved
image. -/
def _resize_thumbnail (img : PilImage) (max_width : Nat) : Nat × Nat × String :=
  let new_height := img.height * max_width / img.width
  let mode := if img.mode ≠ "RGB" then "RGB" else img.mode
  (max_width, new_height, mode)

/-! ### `build_page_data` (`src/fetchers.py` lines 146-167) -/

structure PageData where
  index : Int
  imageDataUrl : String
  textLayer : TextLayerDict
deriving DecidableEq, Repr

/-- `build_page_data(index, image_url, text_layer_url)`, with its two
awaited fetch operations abstracted by their outcomes: `imageResult`
stands for `await fetch_image_as_data_url(image_url)` and `textResult`
for `await fetch_and_parse_text_layer(text_layer_url)` (only consulted
when the URL is truthy, i.e. non-empty).  Besides the `(page, errors)`
pair of the source, the embedding returns how many text-layer fetches
were attempted, so that "no fetch occurs" is provable. -/
def build_page_data (index : Int) (imageResult : Except String String)
    (text_layer_url : String) (textResult : Except String TextLayerDict) :
    PageData × List String × Nat :=
  let img : String × List String :=
    match imageResult with
    | .ok u => (u, [])
    | .error e => ("", ["Page " ++ toString (index + 1) ++ " image: " ++ e])
  let tl : TextLayerDict × Nat :=
    if text_layer_url ≠ "" then
      match textResult with
      | .ok t => (t, 1)
      | .error _ => (_EMPTY_TEXT_LAYER, 1)
    else (_EMPTY_TEXT_LAYER, 0)
  ({ index := index, imageDataUrl := img.1, textLayer := tl.1 }, img.2, tl.2)

/-! ### The TTL cache and `fetch_and_parse_text_layer`
(`src/fetchers.py` lines 34-42, 60-66, 127-143)

One collection (`text_layers`) of the `MemoryStore` is modelled as an
association list of `(key, value, expiry)` against a logical clock;
an entry whose TTL has elapsed is treated as absent on read. -/

def _TTL_TEXT_LAYERS : Nat := 300

structure CacheSt where
  entries : List (String × TextLayerDict × Nat)
  now : Nat
  requests : Nat
deriving DecidableEq, Repr

/-- `_cache_get`: `none` on a miss or an expired entry. -/
def cacheGet (s : CacheSt) (key : String) : Option TextLayerDict :=
  match s.entries.find? (fun e => e.1 == key) with
  | some e => if s.now < e.2.2 then some e.2.1 else none
  | none => none

/-- `_cache.put(key, value, collection, ttl)`: (re)writes the entry with
a fresh expiry. -/
def cachePut (s : CacheSt) (key : String) (v : TextLayerDict) (ttl : Nat) : CacheSt :=
  { s with entries := (key, v, s.now + ttl) :: s.entries.filter (fun e => e.1 != key) }

/-- `fetch_and_parse_text_layer(url)` (the body of its `_fetch`), with
the network and parse stages abstracted: `net url` is the response text
of `fetch_xml_from_url(url)` — counted as one underlying network
request — and `parse` is `detect_and_parse`.  The `_dedup` wrapper is
the identity for a sequential caller (the inflight map is empty before
and after each completed call, see the dedup model below). -/
def fetch_and_parse_text_layer (net : String → String)
    (parse : String → TextLayerDict) (url : String) (s : CacheSt) :
    TextLayerDict × CacheSt :=
  match cacheGet s url with
  | some v => (v, s)
  | none =>
      let xml := net url
      let result := parse xml
      (result, cachePut { s with requests := s.requests + 1 } url result _TTL_TEXT_LAYERS)

/-! ### `_dedup` (`src/fetchers.py` lines 44-57): interleaving model

All callers of the claim share one identical key, so the state tracks
that key's single inflight slot.  asyncio runs one atomic block between
awaits; the atomic blocks of `_dedup` are: the entry block (the
`key in _inflight` test and, on a miss, `ensure_future` plus
registration — no await separates them), the settling of the underlying
computation, and each caller's resumption (the creator's resumption
runs the `finally: _inflight.pop(key, None)`).  Tasks are numbered in
creation order; `outcome t` is what task `t` settles with — an
`Except`, covering success and error alike. -/

instance {E V : Type} [DecidableEq E] [DecidableEq V] : DecidableEq (Except E V) := fun x y =>
  match x, y with
  | .ok a, .ok b =>
      if h : a = b then .isTrue (by rw [h]) else .isFalse (by simp [h])
  | .error a, .error b =>
      if h : a = b then .isTrue (by rw [h]) else .isFalse (by simp [h])
  | .ok _, .error _ => .isFalse (by simp)
  | .error _, .ok _ => .isFalse (by simp)

inductive CallerSt (V E : Type) where
  | entry
  | waitOwn (t : Nat)
  | waitShared (t : Nat)
  | finished (r : Except E V)
deriving DecidableEq, Repr

structure DedupSt (V E : Type) where
  inflight : Option Nat
  created : Nat
  settled : List Nat
  callers : List (CallerSt V E)
deriving DecidableEq, Repr

inductive DedupLabel where
  | enter (i : Nat)
  | settle (t : Nat)
  | resume (i : Nat)
deriving DecidableEq, Repr

/-- One atomic scheduler step; `none` when the labelled step is not
enabled in the given state. -/
def dedupStep {V E : Type} (outcome : Nat → Except E V) (l : DedupLabel)
    (s : DedupSt V E) : Option (DedupSt V E) :=
  match l with
  | .enter i =>
      match s.callers[i]? with
      | some .entry =>
          match s.inflight with
          | some t => some { s with callers := s.callers.set i (.waitShared t) }
          | none =>
              some { s with callers := s.callers.set i (.waitOwn s.created),
                            inflight := some s.created,
                            created := s.created + 1 }
      | _ => none
  | .settle t =>
      if t < s.created ∧ t ∉ s.settled then
        some { s with settled := t :: s.settled }
      else none
  | .resume i =>
      match s.callers[i]? with
      | some (.waitOwn t) =>
          if t ∈ s.settled then
            some { s with callers := s.callers.set i (.finished (outcome t)),
                          inflight := none }
          else none
      | some (.waitShared t) =>
          if t ∈ s.settled then
            some { s with callers := s.callers.set i (.finished (outcome t)) }
          else none
      | _ => none

def dedupRun {V E : Type} (outcome : Nat → Except E V) :
    DedupSt V E → List DedupLabel → Option (DedupSt V E)
  | s, [] => some s
  | s, l :: tr =>
      match dedupStep outcome l s with
      | some s' => dedupRun outcome s' tr
      | none => none

/-- `n` concurrent callers of `_dedup` with the same key, inflight map
initially empty. -/
def dedupInit (V E : Type) (n : Nat) : DedupSt V E :=
  { inflight := none, created := 0, settled := [], callers := List.replicate n .entry }

def isEnter : DedupLabel → Bool
  | .enter _ => true
  | _ => false

def noEnters (tr : List DedupLabel) : Bool :=
  tr.all (fun l => !isEnter l)

/-- The calls are concurrent: every call begins (runs its entry block)
before any call returns. -/
def entersBeforeResumes : List DedupLabel → Bool
  | [] => true
  | .resume _ :: tr => noEnters tr
  | _ :: tr => entersBeforeResumes tr

/-! ## Theorems -/

/-- The retained-lines component of the `_build_text_layer` loop is the
filter on "polygon and transcription both non-empty". -/
theorem buildScan_fst (lines : List TextLine) :
    (buildScan lines).1
      = lines.filter (fun l => l.polygon ≠ "" ∧ l.transcription ≠ "") := by
  induction lines with
  | nil => rfl
  | cons a t ih =>
      by_cases h : a.polygon ≠ "" ∧ a.transcription ≠ ""
      · simp [buildScan, h, List.filter_cons, ih]
      · simp [buildScan, h, List.filter_cons, ih]

/-- The transcription component of the `_build_text_layer` loop is the
transcriptions of the retained lines, in order. -/
theorem buildScan_snd (lines : List TextLine) :
    (buildScan lines).2.1
      = (lines.filter (fun l => l.polygon ≠ "" ∧ l.transcription ≠ "")).map
          (fun l => l.transcription) := by
  induction lines with
  | nil => rfl
  | cons a t ih =>
      by_cases h : a.polygon ≠ "" ∧ a.transcription ≠ ""
      · simp [buildScan, h, List.filter_cons, ih]
      · simp [buildScan, h, List.filter_cons, ih]

/-- An assembly error string of the image field splits around the word
"image". -/
theorem pageImageError_split (t e : String) :
    "Page " ++ t ++ " image: " ++ e
      = ("Page " ++ t ++ " ") ++ "image" ++ (": " ++ e) := by
  apply String.ext
  simp [String.data_append]

/-- C1: `_build_text_layer` retains exactly the raw lines whose polygon
and transcription are both non-empty, in their original order; its
`full_text` is the newline-join of the retained transcriptions in that
order; and consequently, for any dialect-A (ALTO) or dialect-B (PAGE)
document, the number of emitted text lines equals the number of line
elements whose parsed polygon and transcription are both non-empty. -/
theorem build_text_layer_correct (lines : List TextLine) (pw ph : Int) (label : String)
    (dA : AltoDoc) (dB : PageDoc) :
    (_build_text_layer lines pw ph label).text_lines
        = lines.filter (fun l => l.polygon ≠ "" ∧ l.transcription ≠ "")
    ∧ (_build_text_layer lines pw ph label).full_text
        = String.intercalate "\n"
            ((lines.filter (fun l => l.polygon ≠ "" ∧ l.transcription ≠ "")).map
              (fun l => l.transcription))
    ∧ (parse_alto_xml dA).text_lines.length
        = (dA.textLines.map altoLineToTextLine).countP
            (fun l => l.polygon ≠ "" ∧ l.transcription ≠ "")
    ∧ (parse_page_xml dB).text_lines.length
        = (dB.textLines.map pageLineToTextLine).countP
            (fun l => l.polygon ≠ "" ∧ l.transcription ≠ "") := by
  refine ⟨?_, ?_, ?_, ?_⟩
  · simpa [_build_text_layer] using buildScan_fst lines
  · simpa [_build_text_layer] using congrArg (String.intercalate "\n") (buildScan_snd lines)
  · simp [parse_alto_xml, _build_text_layer, buildScan_fst, List.countP_eq_length_filter]
  · simp [parse_page_xml, _build_text_layer, buildScan_fst, List.countP_eq_length_filter]

/-- C3: when the image fetch fails and a text-layer URL is given and
fetches successfully, `build_page_data` returns (does not raise) a page
with an empty `imageDataUrl`, the fetched text layer, and exactly one
error string of the form `"Page {n} image: {reason}"` with the 1-based
page number, mentioning "image". -/
theorem build_page_image_failure (index : Int) (e : String) (url : String)
    (tl : TextLayerDict) (hurl : url ≠ "") :
    (build_page_data index (.error e) url (.ok tl)).1.imageDataUrl = ""
    ∧ (build_page_data index (.error e) url (.ok tl)).1.textLayer = tl
    ∧ (build_page_data index (.error e) url (.ok tl)).2.1
        = ["Page " ++ toString (index + 1) ++ " image: " ++ e]
    ∧ (build_page_data index (.error e) url (.ok tl)).2.1.length = 1
    ∧ ∀ s ∈ (build_page_data index (.error e) url (.ok tl)).2.1,
        ∃ pre post, s = pre ++ "image" ++ post := by
  refine ⟨rfl, by simp [build_page_data, hurl], by simp [build_page_data], ?_, ?_⟩
  · simp [build_page_data]
  · intro s hs
    simp [build_page_data] at hs
    exact ⟨"Page " ++ toString (index + 1) ++ " ", ": " ++ e,
      by rw [hs]; exact pageImageError_split _ _⟩

/-- C3 witness: a concrete failed image fetch next to a successful
text-layer fetch. -/
theorem build_page_image_failure_witness :
    (build_page_data 0 (.error "boom") "http://x/alto.xml"
        (.ok { textLines := [], pageWidth := 10, pageHeight := 20 })).1.imageDataUrl = ""
    ∧ (build_page_data 0 (.error "boom") "http://x/alto.xml"
        (.ok { textLines := [], pageWidth := 10, pageHeight := 20 })).2.1.length = 1 := by
  have h := build_page_image_failure 0 "boom" "http://x/alto.xml"
    { textLines := [], pageWidth := 10, pageHeight := 20 } (by decide)
  exact ⟨h.1, h.2.2.2.1⟩

/-- C9: with an absent (empty) text-layer URL, `build_page_data` uses
the empty sentinel text layer directly, attempts no text-layer fetch,
and records no error for it (the error list carries at most the image
error). -/
theorem build_page_no_text_url (index : Int) (imageResult : Except String String)
    (textResult : Except String TextLayerDict) :
    (build_page_data index imageResult "" textResult).1.textLayer
        = { textLines := [], pageWidth := 0, pageHeight := 0 }
    ∧ (build_page_data index imageResult "" textResult).1.textLayer = _EMPTY_TEXT_LAYER
    ∧ (build_page_data index imageResult "" textResult).2.2 = 0
    ∧ (build_page_data index imageResult "" textResult).2.1
        = (match imageResult with
           | .ok _ => []
           | .error e => ["Page " ++ toString (index + 1) ++ " image: " ++ e]) := by
  refine ⟨?_, ?_, ?_, ?_⟩ <;> cases imageResult <;> rfl

/-- C10: a text-layer fetch or parse failure substitutes the empty
sentinel and leaves the error list unchanged: the errors of a page
assembly are exactly the image-field errors, so every error string the
assembly can emit mentions "image". -/
theorem build_page_text_failure_isolated (index : Int) (imgR : Except String String)
    (url : String) (txtR : Except String TextLayerDict) :
    ((∃ e, txtR = .error e) →
        (build_page_data index imgR url txtR).1.textLayer = _EMPTY_TEXT_LAYER)
    ∧ (build_page_data index imgR url txtR).2.1
        = (match imgR with
           | .ok _ => []
           | .error e => ["Page " ++ toString (index + 1) ++ " image: " ++ e])
    ∧ ∀ s ∈ (build_page_data index imgR url txtR).2.1,
        ∃ pre post, s = pre ++ "image" ++ post := by
  refine ⟨?_, ?_, ?_⟩
  · rintro ⟨e, rfl⟩
    by_cases hu : url = "" <;> cases imgR <;> simp [build_page_data, hu, _EMPTY_TEXT_LAYER]
  · cases imgR <;> by_cases hu : url = "" <;> cases txtR <;> simp [build_page_data, hu]
  · intro s hs
    cases imgR with
    | ok u => simp [build_page_data] at hs
    | error e =>
        simp [build_page_data] at hs
        exact ⟨"Page " ++ toString (index + 1) ++ " ", ": " ++ e,
          by rw [hs]; exact pageImageError_split _ _⟩

/-- C10 witness: a concrete failing text-layer fetch leaves the sentinel
and an error list driven only by the image outcome. -/
theorem build_page_text_failure_isolated_witness :
    (build_page_data 0 (.ok "data:image/jpeg;base64,xyz") "http://x/alto.xml"
        (.error "parse error")).1.textLayer = _EMPTY_TEXT_LAYER
    ∧ (build_page_data 0 (.ok "data:image/jpeg;base64,xyz") "http://x/alto.xml"
        (.error "parse error")).2.1 = [] := by
  have h := build_page_text_failure_isolated 0 (.ok "data:image/jpeg;base64,xyz")
    "http://x/alto.xml" (.error "parse error")
  exact ⟨h.1 ⟨"parse error", rfl⟩, h.2.1⟩

/-- C4: for a dialect-A line without an explicit polygon whose BASELINE
attribute parses as at least two integer (x,y) points, the synthesized
polygon is the top points (y offset by -40, clamped at 0) followed by
the points in reverse order with y offset by +15, space-joined. -/
theorem polygon_from_baseline_correct (tl : AltoLine) (b : String)
    (pts : List (Int × Int))
    (hshape : altoExplicitPolygon tl = "")
    (hb : tl.BASELINE = some b) (hbne : b ≠ "")
    (hparse : (pySplitWs b).mapM baselinePoint = some pts)
    (hlen : 2 ≤ pts.length) :
    (altoLineToTextLine tl).polygon
      = String.intercalate " "
          (pts.map (fun q => intPoint q.1 (max 0 (q.2 - 40)))
            ++ pts.reverse.map (fun q => intPoint q.1 (q.2 + 15))) := by
  have hpoly : altoLinePolygon tl
      = _polygon_from_baseline b _BASELINE_ASCENT _BASELINE_DESCENT := by
    unfold altoLinePolygon
    rw [hshape]
    simp [hb, hbne]
  show altoLinePolygon tl = _
  rw [hpoly]
  unfold _polygon_from_baseline
  rw [hparse]
  simp [Nat.not_lt.mpr hlen, _BASELINE_ASCENT, _BASELINE_DESCENT]

/-- C4 witness: baseline "306,290 420,290" synthesizes exactly
"306,250 420,250 420,305 306,305". -/
theorem polygon_from_baseline_witness :
    (altoLineToTextLine { ID := none, shapePolygon := none,
                          BASELINE := some "306,290 420,290", HPOS := none,
                          VPOS := none, WIDTH := none, HEIGHT := none,
                          strings := [] }).polygon
      = "306,250 420,250 420,305 306,305" := by
  have h := polygon_from_baseline_correct
    { ID := none, shapePolygon := none, BASELINE := some "306,290 420,290",
      HPOS := none, VPOS := none, WIDTH := none, HEIGHT := none, strings := [] }
    "306,290 420,290" [(306, 290), (420, 290)] rfl rfl (by decide) (by decide) (by decide)
  rw [h]; decide

/-- C5: the ALTO parser sets a line's confidence to the arithmetic mean
of the WC values that are present and parseable across the line's
String elements, and leaves it absent (`none`, not zero) when no such
value exists; the PAGE parser sets it to the TextEquiv `conf` value
when present and parseable (the mean of that single per-line value) and
absent otherwise. -/
theorem confidence_is_mean (tlA : AltoLine) (tlB : PageLine) :
    (altoLineToTextLine tlA).confidence
        = (if altoWcValid tlA = [] then none
           else some ((altoWcValid tlA).sum / ((altoWcValid tlA).length : ℚ)))
    ∧ (pageLineToTextLine tlB).confidence
        = (match tlB.textEquiv with
           | some te => _float te.conf
           | none => none) := by
  constructor
  · simp [altoLineToTextLine, List.isEmpty_iff]
  · cases h : tlB.textEquiv <;> simp [pageLineToTextLine, h]

/-- Time passing between two calls: the state is unchanged except that
the logical clock advances by `d`. -/
def tick (s : CacheSt) (d : Nat) : CacheSt :=
  { s with now := s.now + d }

/-- C6: a second call of the cached text-layer fetch with the same URL,
made within the TTL, hits the cache: across the two calls exactly one
underlying network request happens and both calls return the same
result. -/
theorem fetch_text_layer_cached (net : String → String)
    (parse : String → TextLayerDict) (url : String) (s : CacheSt) (d : Nat)
    (hmiss : cacheGet s url = none) (hd : d < _TTL_TEXT_LAYERS) :
    (fetch_and_parse_text_layer net parse url
        (tick (fetch_and_parse_text_layer net parse url s).2 d)).1
      = (fetch_and_parse_text_layer net parse url s).1
    ∧ (fetch_and_parse_text_layer net parse url s).2.requests = s.requests + 1
    ∧ (fetch_and_parse_text_layer net parse url
        (tick (fetch_and_parse_text_layer net parse url s).2 d)).2.requests
      = s.requests + 1 := by
  have h1 : fetch_and_parse_text_layer net parse url s
      = (parse (net url),
         cachePut { s with requests := s.requests + 1 } url (parse (net url))
           _TTL_TEXT_LAYERS) := by
    unfold fetch_and_parse_text_layer
    rw [hmiss]
  have hlt : s.now + d < s.now + _TTL_TEXT_LAYERS := by omega
  have h2 : cacheGet (tick (fetch_and_parse_text_layer net parse url s).2 d) url
      = some (parse (net url)) := by
    simp only [h1, tick, cachePut, cacheGet, List.find?_cons, beq_self_eq_true, cond_true]
    simp [hlt]
  have hhit : ∀ (s' : CacheSt) v, cacheGet s' url = some v →
      fetch_and_parse_text_layer net parse url s' = (v, s') := by
    intro s' v hv
    unfold fetch_and_parse_text_layer
    rw [hv]
  have h3 := hhit _ _ h2
  refine ⟨?_, ?_, ?_⟩
  · rw [h3, h1]
  · rw [h1]
    rfl
  · rw [h3, h1]
    rfl

/-- C6 witness: a concrete fresh cache, the second call 1 tick later. -/
theorem fetch_text_layer_cached_witness :
    (fetch_and_parse_text_layer (fun _ => "xml") (fun _ => _EMPTY_TEXT_LAYER) "u"
        (tick (fetch_and_parse_text_layer (fun _ => "xml") (fun _ => _EMPTY_TEXT_LAYER)
          "u" { entries := [], now := 0, requests := 0 }).2 1)).1
      = (fetch_and_parse_text_layer (fun _ => "xml") (fun _ => _EMPTY_TEXT_LAYER) "u"
          { entries := [], now := 0, requests := 0 }).1
    ∧ (fetch_and_parse_text_layer (fun _ => "xml") (fun _ => _EMPTY_TEXT_LAYER) "u"
        (tick (fetch_and_parse_text_layer (fun _ => "xml") (fun _ => _EMPTY_TEXT_LAYER)
          "u" { entries := [], now := 0, requests := 0 }).2 1)).2.requests
      = 1 := by
  have h := fetch_text_layer_cached (fun _ => "xml") (fun _ => _EMPTY_TEXT_LAYER) "u"
    { entries := [], now := 0, requests := 0 } 1 rfl (by decide)
  exact ⟨h.1, h.2.2⟩

/-- C7 counterexample: for a 3-wide, 2-high source image resized to
target width 1, the code computes the new height as `int(2·1/3) = 0`
(truncation), while the claimed `round(2·1/3)` is `1`. -/
theorem resize_thumbnail_truncates_not_rounds :
    (_resize_thumbnail { width := 3, height := 2, mode := "RGB" } 1).2.1 = 0
    ∧ round ((2 * 1 : ℚ) / 3) = 1
    ∧ ((_resize_thumbnail { width := 3, height := 2, mode := "RGB" } 1).2.1 : ℤ)
        ≠ round ((2 * 1 : ℚ) / 3) := by
  have hr : round ((2 * 1 : ℚ) / 3) = 1 := by norm_num [round_eq]
  refine ⟨rfl, hr, ?_⟩
  rw [hr, show ((_resize_thumbnail { width := 3, height := 2, mode := "RGB" } 1).2.1 : ℤ)
      = 0 from rfl]
  decide

/-- C7 (amended): for a source image of width w > 0 and height h and
target width t, the thumbnail resize outputs dimensions
`(t, ⌊h·t/w⌋)` — the new height is Python `int()` truncation of
`h·t/w`, not rounding — so the aspect ratio is preserved within one
unit of truncation (`nh·w ≤ h·t < (nh+1)·w`), and the output image is
always RGB (3-channel, no alpha). -/
theorem resize_thumbnail_dims (img : PilImage) (t : Nat) (hw : 0 < img.width) :
    (_resize_thumbnail img t).1 = t
    ∧ (_resize_thumbnail img t).2.1 = Nat.floor ((img.height * t : ℚ) / (img.width : ℚ))
    ∧ (_resize_thumbnail img t).2.1 * img.width ≤ img.height * t
    ∧ img.height * t < ((_resize_thumbnail img t).2.1 + 1) * img.width
    ∧ (_resize_thumbnail img t).2.2 = "RGB" := by
  refine ⟨rfl, ?_, ?_, ?_, ?_⟩
  · show img.height * t / img.width = _
    have hfl := Nat.floor_div_nat ((img.height * t : ℕ) : ℚ) img.width
    rw [Nat.floor_natCast] at hfl
    rw [← hfl]
    norm_num
  · exact Nat.div_mul_le_self _ _
  · show img.height * t < (img.height * t / img.width + 1) * img.width
    have h1 := Nat.div_add_mod (img.height * t) img.width
    have h2 := Nat.mod_lt (img.height * t) hw
    nlinarith
  · show (if img.mode ≠ "RGB" then "RGB" else img.mode) = "RGB"
    by_cases h : img.mode = "RGB" <;> simp [h]

/-- C7 witness: a 2-wide, 3-high RGBA image at target width 1. -/
theorem resize_thumbnail_dims_witness :
    (_resize_thumbnail { width := 2, height := 3, mode := "RGBA" } 1).1 = 1
    ∧ (_resize_thumbnail { width := 2, height := 3, mode := "RGBA" } 1).2.1 * 2 ≤ 3 * 1
    ∧ (_resize_thumbnail { width := 2, height := 3, mode := "RGBA" } 1).2.2 = "RGB" := by
  have h := resize_thumbnail_dims { width := 2, height := 3, mode := "RGBA" } 1 (by decide)
  exact ⟨h.1, h.2.2.1, h.2.2.2.2⟩

/-- C8 counterexample: a dialect-A document whose Page element carries
WIDTH="0" and HEIGHT="0" parses to pageWidth 0 and pageHeight 0 — the
explicit attribute value is passed through, so the resulting page size
is not a positive integer. -/
theorem page_size_zero_passthrough :
    (parse_alto_xml { page := some { WIDTH := some "0", HEIGHT := some "0" },
                      textLines := [] }).page_width = 0
    ∧ ¬ (0 < (parse_alto_xml { page := some { WIDTH := some "0", HEIGHT := some "0" },
                               textLines := [] }).page_width) := by
  exact ⟨by decide, by decide⟩

/-- C8 (amended): for either dialect, pageWidth and pageHeight equal the
Page element's size attributes parsed through `_int` — passed through
even when zero or negative, so positivity is not guaranteed — and both
equal the defaults 6192×5432 when the page element is missing or the
respective attribute is absent. -/
theorem page_size_amended (dA : AltoDoc) (dB : PageDoc) :
    (parse_alto_xml dA).page_width = (altoPageSize dA).1
    ∧ (parse_alto_xml dA).page_height = (altoPageSize dA).2
    ∧ (parse_page_xml dB).page_width = (pagePageSize dB).1
    ∧ (parse_page_xml dB).page_height = (pagePageSize dB).2
    ∧ (dA.page = none →
        (parse_alto_xml dA).page_width = 6192 ∧ (parse_alto_xml dA).page_height = 5432)
    ∧ (∀ p, dA.page = some p → p.WIDTH = none → (parse_alto_xml dA).page_width = 6192)
    ∧ (∀ p, dA.page = some p → p.HEIGHT = none → (parse_alto_xml dA).page_height = 5432)
    ∧ (dB.page = none →
        (parse_page_xml dB).page_width = 6192 ∧ (parse_page_xml dB).page_height = 5432)
    ∧ (∀ p, dB.page = some p → p.imageWidth = none → (parse_page_xml dB).page_width = 6192)
    ∧ (∀ p, dB.page = some p → p.imageHeight = none →
        (parse_page_xml dB).page_height = 5432) := by
  refine ⟨rfl, rfl, rfl, rfl, ?_, ?_, ?_, ?_, ?_, ?_⟩
  · intro h
    constructor <;> simp [parse_alto_xml, _build_text_layer, altoPageSize, h,
      _DEFAULT_PAGE_WIDTH, _DEFAULT_PAGE_HEIGHT]
  · intro p hp hw
    simp [parse_alto_xml, _build_text_layer, altoPageSize, hp, hw, _int, _DEFAULT_PAGE_WIDTH]
  · intro p hp hh
    simp [parse_alto_xml, _build_text_layer, altoPageSize, hp, hh, _int, _DEFAULT_PAGE_HEIGHT]
  · intro h
    constructor <;> simp [parse_page_xml, _build_text_layer, pagePageSize, h,
      _DEFAULT_PAGE_WIDTH, _DEFAULT_PAGE_HEIGHT]
  · intro p hp hw
    simp [parse_page_xml, _build_text_layer, pagePageSize, hp, hw, _int, _DEFAULT_PAGE_WIDTH]
  · intro p hp hh
    simp [parse_page_xml, _build_text_layer, pagePageSize, hp, hh, _int, _DEFAULT_PAGE_HEIGHT]

/-- C8 witness: documents of both dialects with no Page element get the
default 6192×5432. -/
theorem page_size_amended_witness :
    (parse_alto_xml { page := none, textLines := [] }).page_width = 6192
    ∧ (parse_alto_xml { page := none, textLines := [] }).page_height = 5432
    ∧ (parse_page_xml { page := none, textLines := [] }).page_width = 6192
    ∧ (parse_page_xml { page := none, textLines := [] }).page_height = 5432 := by
  obtain ⟨-, -, -, -, h5, -, -, h8, -, -⟩ :=
    page_size_amended { page := none, textLines := [] } { page := none, textLines := [] }
  exact ⟨(h5 rfl).1, (h5 rfl).2, (h8 rfl).1, (h8 rfl).2⟩

/-! ### Invariants of the dedup machine -/

theorem getElem?_lt_length {α : Type} {l : List α} {i : Nat} {a : α}
    (h : l[i]? = some a) : i < l.length := by
  by_contra hlt
  rw [List.getElem?_eq_none (Nat.le_of_not_lt hlt)] at h
  cases h

/-- Caller states reachable before any caller has returned: waiting
callers wait on task 0 and nobody is finished. -/
def okCallerA {V E : Type} : CallerSt V E → Prop
  | .entry => True
  | .waitOwn t => t = 0
  | .waitShared t => t = 0
  | .finished _ => False

/-- Caller states reachable once some caller has returned: waiting
callers wait on task 0, finished callers hold task 0's outcome. -/
def okCallerB {V E : Type} (outcome : Nat → Except E V) : CallerSt V E → Prop
  | .entry => True
  | .waitOwn t => t = 0
  | .waitShared t => t = 0
  | .finished r => r = outcome 0

/-- Invariant before the first caller returns: either nobody has entered
(no task exists), or exactly one task was created, its ticket is
registered, and its creator is still waiting on it. -/
def phaseA {V E : Type} (s : DedupSt V E) : Prop :=
  (s.created = 0 ∧ s.inflight = none ∧ s.settled = []
    ∧ ∀ i : Nat, ∀ c, s.callers[i]? = some c → c = .entry)
  ∨ (s.created = 1 ∧ s.inflight = some 0 ∧ (s.settled = [] ∨ s.settled = [0])
    ∧ (∃ j : Nat, s.callers[j]? = some (.waitOwn 0))
    ∧ ∀ i : Nat, ∀ c, s.callers[i]? = some c → okCallerA c)

/-- Invariant from the first return on: exactly one task was created and
it has settled; its ticket is gone, or still registered with the
creator still waiting. -/
def phaseB {V E : Type} (outcome : Nat → Except E V) (s : DedupSt V E) : Prop :=
  s.created = 1 ∧ s.settled = [0]
  ∧ (s.inflight = none
     ∨ (s.inflight = some 0 ∧ ∃ j : Nat, s.callers[j]? = some (.waitOwn 0)))
  ∧ ∀ i : Nat, ∀ c, s.callers[i]? = some c → okCallerB outcome c

theorem dedupStep_length {V E : Type} {outcome : Nat → Except E V} {l : DedupLabel}
    {s s' : DedupSt V E} (h : dedupStep outcome l s = some s') :
    s'.callers.length = s.callers.length := by
  cases l <;> simp only [dedupStep] at h <;>
    repeat first
      | (cases h; simp [List.length_set])
      | exact Option.noConfusion h
      | split at h

theorem dedupRun_length {V E : Type} {outcome : Nat → Except E V} :
    ∀ {tr : List DedupLabel} {s s' : DedupSt V E},
      dedupRun outcome s tr = some s' → s'.callers.length = s.callers.length := by
  intro tr
  induction tr with
  | nil => intro s s' h; cases h; rfl
  | cons l tr ih =>
      intro s s' h
      simp only [dedupRun] at h
      cases hstep : dedupStep outcome l s with
      | none => rw [hstep] at h; cases h
      | some s1 =>
          rw [hstep] at h
          rw [ih h, dedupStep_length hstep]

/-- An `enter` step preserves the pre-return invariant. -/
theorem dedupStep_enter_phaseA {V E : Type} {outcome : Nat → Except E V} {i : Nat}
    {s s' : DedupSt V E} (hA : phaseA s)
    (h : dedupStep outcome (.enter i) s = some s') : phaseA s' := by
  simp only [dedupStep] at h
  split at h
  next heq =>
    split at h
    next t hin =>
      -- ticket already registered: the caller joins it
      cases h
      rcases hA with ⟨h0, hin0, _, _⟩ | ⟨h1, hin1, hset, ⟨j, hj⟩, hcall⟩
      · rw [hin0] at hin; cases hin
      · rw [hin1] at hin
        cases hin
        refine Or.inr ⟨h1, hin1, hset, ?_, ?_⟩
        · refine ⟨j, ?_⟩
          have hji : j ≠ i := by
            intro hji
            rw [hji, heq] at hj
            cases hj
          rw [List.getElem?_set_ne (fun hne => hji hne.symm)]
          exact hj
        · intro k c hk
          by_cases hki : i = k
          · subst hki
            rw [List.getElem?_set_eq_of_lt _ (getElem?_lt_length heq)] at hk
            cases hk
            trivial
          · rw [List.getElem?_set_ne hki] at hk
            exact hcall k c hk
    next hin =>
      -- no ticket: the caller creates task `created` and registers it
      cases h
      rcases hA with ⟨h0, hin0, hset, hcall⟩ | ⟨h1, hin1, hset, ⟨j, hj⟩, hcall⟩
      · refine Or.inr ⟨by show s.created + 1 = 1; omega,
          by show some s.created = some 0; rw [h0], Or.inl hset, ?_, ?_⟩
        · refine ⟨i, ?_⟩
          rw [List.getElem?_set_eq_of_lt _ (getElem?_lt_length heq), h0]
        · intro k c hk
          by_cases hki : i = k
          · subst hki
            rw [List.getElem?_set_eq_of_lt _ (getElem?_lt_length heq)] at hk
            cases hk
            simp [okCallerA, h0]
          · rw [List.getElem?_set_ne hki] at hk
            rw [hcall k c hk]
            trivial
      · rw [hin1] at hin; cases hin
  next => exact Option.noConfusion h

/-- A `settle` step preserves the pre-return invariant. -/
theorem dedupStep_settle_phaseA {V E : Type} {outcome : Nat → Except E V} {t : Nat}
    {s s' : DedupSt V E} (hA : phaseA s)
    (h : dedupStep outcome (.settle t) s = some s') : phaseA s' := by
  simp only [dedupStep] at h
  split at h
  next hcond =>
    cases h
    rcases hA with ⟨h0, hin0, hset, hcall⟩ | ⟨h1, hin1, hset, hj, hcall⟩
    · omega
    · have ht : t = 0 := by omega
      subst ht
      rcases hset with hset | hset
      · exact Or.inr ⟨h1, hin1, by rw [hset]; exact Or.inr rfl, hj, hcall⟩
      · rw [hset] at hcond
        simp at hcond
  next => exact Option.noConfusion h

/-- A `resume` step out of the pre-return invariant establishes the
post-return invariant. -/
theorem dedupStep_resume_phaseA {V E : Type} {outcome : Nat → Except E V} {i : Nat}
    {s s' : DedupSt V E} (hA : phaseA s)
    (h : dedupStep outcome (.resume i) s = some s') : phaseB outcome s' := by
  simp only [dedupStep] at h
  rcases hA with ⟨h0, hin0, hset, hcall⟩ | ⟨h1, hin1, hset, ⟨j, hj⟩, hcall⟩
  · -- nobody has entered: no caller can be waiting, the step is disabled
    split at h
    next heq => exact absurd (hcall i _ heq) (by simp)
    next heq => exact absurd (hcall i _ heq) (by simp)
    next => exact Option.noConfusion h
  · split at h
    next t heq =>
      -- the creator resumes: record the outcome, pop the ticket
      have ht : t = 0 := hcall i _ heq
      subst ht
      split at h
      next hmem =>
        cases h
        have hset0 : s.settled = [0] := by
          rcases hset with hset | hset
          · rw [hset] at hmem; cases hmem
          · exact hset
        refine ⟨h1, hset0, Or.inl rfl, ?_⟩
        intro k c hk
        by_cases hki : i = k
        · subst hki
          rw [List.getElem?_set_eq_of_lt _ (getElem?_lt_length heq)] at hk
          cases hk
          simp [okCallerB]
        · rw [List.getElem?_set_ne hki] at hk
          have := hcall k c hk
          cases c <;> simp_all [okCallerA, okCallerB]
      next => exact Option.noConfusion h
    next t heq =>
      -- a joined caller resumes: record the outcome, ticket untouched
      have ht : t = 0 := hcall i _ heq
      subst ht
      split at h
      next hmem =>
        cases h
        have hset0 : s.settled = [0] := by
          rcases hset with hset | hset
          · rw [hset] at hmem; cases hmem
          · exact hset
        refine ⟨h1, hset0, ?_, ?_⟩
        · refine Or.inr ⟨hin1, j, ?_⟩
          have hji : j ≠ i := by
            intro hji
            rw [hji, heq] at hj
            cases hj
          rw [List.getElem?_set_ne (fun hne => hji hne.symm)]
          exact hj
        · intro k c hk
          by_cases hki : i = k
          · subst hki
            rw [List.getElem?_set_eq_of_lt _ (getElem?_lt_length heq)] at hk
            cases hk
            simp [okCallerB]
          · rw [List.getElem?_set_ne hki] at hk
            have := hcall k c hk
            cases c <;> simp_all [okCallerA, okCallerB]
      next => exact Option.noConfusion h
    next => exact Option.noConfusion h

/-- Any non-`enter` step preserves the post-return invariant. -/
theorem dedupStep_phaseB {V E : Type} {outcome : Nat → Except E V} {l : DedupLabel}
    {s s' : DedupSt V E} (hB : phaseB outcome s) (hl : isEnter l = false)
    (h : dedupStep outcome l s = some s') : phaseB outcome s' := by
  obtain ⟨h1, hset, hin, hcall⟩ := hB
  cases l with
  | enter i => simp [isEnter] at hl
  | settle t =>
      simp only [dedupStep] at h
      split at h
      next hcond =>
        have ht : t = 0 := by omega
        subst ht
        rw [hset] at hcond
        simp at hcond
      next => exact Option.noConfusion h
  | resume i =>
      simp only [dedupStep] at h
      split at h
      next t heq =>
        have ht : t = 0 := hcall i _ heq
        subst ht
        split at h
        next hmem =>
          cases h
          refine ⟨h1, hset, Or.inl rfl, ?_⟩
          intro k c hk
          by_cases hki : i = k
          · subst hki
            rw [List.getElem?_set_eq_of_lt _ (getElem?_lt_length heq)] at hk
            cases hk
            simp [okCallerB]
          · rw [List.getElem?_set_ne hki] at hk
            exact hcall k c hk
        next => exact Option.noConfusion h
      next t heq =>
        have ht : t = 0 := hcall i _ heq
        subst ht
        split at h
        next hmem =>
          cases h
          refine ⟨h1, hset, ?_, ?_⟩
          · rcases hin with hin | ⟨hin, j, hj⟩
            · exact Or.inl hin
            · refine Or.inr ⟨hin, j, ?_⟩
              have hji : j ≠ i := by
                intro hji
                rw [hji, heq] at hj
                cases hj
              rw [List.getElem?_set_ne (fun hne => hji hne.symm)]
              exact hj
          · intro k c hk
            by_cases hki : i = k
            · subst hki
              rw [List.getElem?_set_eq_of_lt _ (getElem?_lt_length heq)] at hk
              cases hk
              simp [okCallerB]
            · rw [List.getElem?_set_ne hki] at hk
              exact hcall k c hk
        next => exact Option.noConfusion h
      next => exact Option.noConfusion h

/-- A run with no `enter` steps preserves the post-return invariant. -/
theorem dedupRun_phaseB {V E : Type} {outcome : Nat → Except E V} :
    ∀ {tr : List DedupLabel} {s s' : DedupSt V E},
      dedupRun outcome s tr = some s' → noEnters tr = true →
      phaseB outcome s → phaseB outcome s' := by
  intro tr
  induction tr with
  | nil => intro s s' h _ hB; cases h; exact hB
  | cons l tr ih =>
      intro s s' h hno hB
      simp only [noEnters, List.all_cons, Bool.and_eq_true, Bool.not_eq_true'] at hno
      simp only [dedupRun] at h
      cases hstep : dedupStep outcome l s with
      | none => rw [hstep] at h; cases h
      | some s1 =>
          rw [hstep] at h
          refine ih h ?_ (dedupStep_phaseB hB hno.1 hstep)
          simp only [noEnters]
          exact hno.2

/-- A run whose `enter` steps all precede its `resume` steps goes from
the pre-return invariant to it or to the post-return invariant. -/
theorem dedupRun_phase {V E : Type} {outcome : Nat → Except E V} :
    ∀ {tr : List DedupLabel} {s s' : DedupSt V E},
      dedupRun outcome s tr = some s' → entersBeforeResumes tr = true →
      phaseA s → phaseA s' ∨ phaseB outcome s' := by
  intro tr
  induction tr with
  | nil => intro s s' h _ hA; cases h; exact Or.inl hA
  | cons l tr ih =>
      intro s s' h hconc hA
      simp only [dedupRun] at h
      cases hstep : dedupStep outcome l s with
      | none => rw [hstep] at h; cases h
      | some s1 =>
          rw [hstep] at h
          cases l with
          | enter i =>
              exact ih h (by simpa [entersBeforeResumes] using hconc)
                (dedupStep_enter_phaseA hA hstep)
          | settle t =>
              exact ih h (by simpa [entersBeforeResumes] using hconc)
                (dedupStep_settle_phaseA hA hstep)
          | resume i =>
              refine Or.inr (dedupRun_phaseB h ?_ (dedupStep_resume_phaseA hA hstep))
              simpa [entersBeforeResumes] using hconc

/-- C2: for `n ≥ 2` concurrent calls of `_dedup` with one identical key
(each call enters before any call returns), any completed execution —
every caller finished — created exactly one underlying task, every
caller received that one task's outcome (the same value on success, the
same error on failure), and the inflight ticket has been removed. -/
theorem dedup_exactly_once {V E : Type} (outcome : Nat → Except E V) (n : Nat)
    (hn : 2 ≤ n) (tr : List DedupLabel) (s' : DedupSt V E)
    (hrun : dedupRun outcome (dedupInit V E n) tr = some s')
    (hconc : entersBeforeResumes tr = true)
    (hdone : ∀ c ∈ s'.callers, ∃ r, c = CallerSt.finished r) :
    s'.created = 1
    ∧ (∀ c ∈ s'.callers, c = CallerSt.finished (outcome 0))
    ∧ s'.inflight = none := by
  have hlen : s'.callers.length = n := by
    rw [dedupRun_length hrun]
    simp [dedupInit]
  have hinit : phaseA (dedupInit V E n) := by
    refine Or.inl ⟨rfl, rfl, rfl, ?_⟩
    intro i c hc
    exact List.eq_of_mem_replicate (List.mem_iff_getElem?.mpr ⟨i, hc⟩)
  rcases dedupRun_phase hrun hconc hinit with hA | hB
  · -- the pre-return invariant contradicts "every caller finished"
    exfalso
    rcases hA with ⟨h0, hin0, hset, hcall⟩ | ⟨h1, hin1, hset, ⟨j, hj⟩, hcall⟩
    · have hpos : 0 < s'.callers.length := by omega
      cases hc : s'.callers[0]? with
      | none => rw [List.getElem?_eq_none_iff] at hc; omega
      | some c =>
          obtain ⟨r, hr⟩ := hdone c (List.mem_iff_getElem?.mpr ⟨0, hc⟩)
          rw [hr] at hc
          have := hcall 0 _ hc
          cases this
    · obtain ⟨r, hr⟩ := hdone _ (List.mem_iff_getElem?.mpr ⟨j, hj⟩)
      cases hr
  · obtain ⟨h1, hset, hin, hcall⟩ := hB
    refine ⟨h1, ?_, ?_⟩
    · intro c hc
      obtain ⟨i, hi⟩ := List.mem_iff_getElem?.mp hc
      obtain ⟨r, hr⟩ := hdone c hc
      subst hr
      have := hcall i _ hi
      simp only [okCallerB] at this
      rw [this]
    · rcases hin with hin | ⟨hin, j, hj⟩
      · exact hin
      · obtain ⟨r, hr⟩ := hdone _ (List.mem_iff_getElem?.mpr ⟨j, hj⟩)
        cases hr

/-- C2 witness: two concurrent callers, one settle, both resume; the
single task's outcome reaches both and the ticket is gone. -/
theorem dedup_exactly_once_witness :
    ({ inflight := none, created := 1, settled := [0],
       callers := [CallerSt.finished (Except.ok 42),
                   CallerSt.finished (Except.ok 42)] } : DedupSt Nat String).created = 1
    ∧ (∀ c ∈ ({ inflight := none, created := 1, settled := [0],
                callers := [CallerSt.finished (Except.ok 42),
                            CallerSt.finished (Except.ok 42)] } : DedupSt Nat String).callers,
        c = CallerSt.finished (Except.ok 42))
    ∧ ({ inflight := none, created := 1, settled := [0],
         callers := [CallerSt.finished (Except.ok 42),
                     CallerSt.finished (Except.ok 42)] } : DedupSt Nat String).inflight
        = none := by
  have h := dedup_exactly_once (fun _ => (Except.ok 42 : Except String Nat)) 2
    (by decide)
    [DedupLabel.enter 0, DedupLabel.enter 1, DedupLabel.settle 0,
     DedupLabel.resume 1, DedupLabel.resume 0]
    { inflight := none, created := 1, settled := [0],
      callers := [CallerSt.finished (Except.ok 42), CallerSt.finished (Except.ok 42)] }
    (by decide) (by decide)
    (by
      intro c hc
      simp only [List.mem_cons, List.not_mem_nil, or_false] at hc
      rcases hc with rfl | rfl
      · exact ⟨Except.ok 42, rfl⟩
      · exact ⟨Except.ok 42, rfl⟩)
  exact h

end Viewer
